import Mathlib

/-!
Shallow embedding of the feature-restriction service
(`src/feature_restriction/` plus `src/stream_consumer.py` and `src/app.py`).

Python dicts and Redis hashes are modelled as association lists with
replace-first-occurrence update (the faithful semantics for the duplicate-free
lists that Python/Redis can actually produce).  Python floats (amounts,
timestamps) are modelled as rationals; Python's `True` / `None` / `False`
return values of `BaseRule.process_rule` are modelled as `Option Bool`
(`some true` / `none` / `some false`).
-/

namespace FeatureRestriction

/-- `d.get(k)` on a Python dict / `HGET` on a Redis hash, as lookup of the
first binding of `k` in an association list. -/
def dictGet {α : Type} : List (String × α) → String → Option α
  | [], _ => none
  | p :: rest, k => if p.1 = k then some p.2 else dictGet rest k

/-- `d[k] = v` on a Python dict / `HSET` on a Redis hash: replace the first
binding of `k`, or append a new binding at the end. -/
def dictSet {α : Type} : List (String × α) → String → α → List (String × α)
  | [], k, v => [(k, v)]
  | p :: rest, k, v => if p.1 = k then (k, v) :: rest else p :: dictSet rest k v

theorem dictGet_dictSet {α : Type} (l : List (String × α)) (k : String) (v : α)
    (k' : String) :
    dictGet (dictSet l k v) k' = if k' = k then some v else dictGet l k' := by
  induction l with
  | nil =>
    simp only [dictSet, dictGet]
    by_cases h : k' = k
    · simp [h]
    · have h2 : ¬ k = k' := fun hh => h hh.symm
      simp [h, h2]
  | cons p rest ih =>
    by_cases hp : p.1 = k
    · simp only [dictSet, if_pos hp, dictGet]
      by_cases h : k' = k
      · simp [h]
      · have h2 : ¬ k = k' := fun hh => h hh.symm
        have h3 : ¬ p.1 = k' := by rw [hp]; exact h2
        simp [h, h2, h3]
    · simp only [dictSet, if_neg hp, dictGet]
      by_cases h3 : p.1 = k'
      · have h : ¬ k' = k := fun hh => hp (h3.trans hh)
        simp [h3, h]
      · simp [h3, ih]

theorem dictSet_dictSet_same {α : Type} (l : List (String × α)) (k : String) (v : α) :
    dictSet (dictSet l k v) k v = dictSet l k v := by
  induction l with
  | nil => simp [dictSet]
  | cons p rest ih =>
    simp only [dictSet]
    by_cases hp : p.1 = k
    · simp [hp, dictSet]
    · simp [hp, dictSet, ih]

theorem dictSet_of_get_none {α : Type} (l : List (String × α)) (k : String) (v : α)
    (h : dictGet l k = none) : dictSet l k v = l ++ [(k, v)] := by
  induction l with
  | nil => simp [dictSet]
  | cons p rest ih =>
    simp only [dictGet] at h
    by_cases hp : p.1 = k
    · simp [hp] at h
    · simp only [dictSet, if_neg hp, List.cons_append]
      simp only [if_neg hp] at h
      rw [ih h]

/-- Membership in an updated association list, for a key different from the
one updated: only the first binding of the updated key is touched. -/
theorem mem_dictSet_of_ne {α : Type} (l : List (String × α)) (k : String) (v : α)
    (u : String) (a : α) (hu : u ≠ k) :
    (u, a) ∈ dictSet l k v ↔ (u, a) ∈ l := by
  induction l with
  | nil => simp [dictSet, Prod.ext_iff, hu]
  | cons p rest ih =>
    simp only [dictSet]
    split_ifs with hp
    · simp only [List.mem_cons]
      constructor
      · rintro (h | h)
        · exact absurd (hp ▸ congrArg Prod.fst h) hu
        · exact Or.inr h
      · rintro (h | h)
        · exact absurd (hp ▸ congrArg Prod.fst (h : (u, a) = p)) hu
        · exact Or.inr h
    · simp only [List.mem_cons, ih]

/-- Membership at the updated key, when the list has no duplicate keys:
the only binding of `k` after the update is `(k, v)`. -/
theorem mem_dictSet_self {α : Type} (l : List (String × α)) (k : String) (v : α)
    (a : α) (hnd : (l.map Prod.fst).Nodup) :
    (k, a) ∈ dictSet l k v ↔ a = v := by
  induction l with
  | nil => simp [dictSet]
  | cons p rest ih =>
    simp only [List.map_cons, List.nodup_cons] at hnd
    simp only [dictSet]
    split_ifs with hp
    · simp only [List.mem_cons]
      constructor
      · rintro (h | h)
        · exact (Prod.ext_iff.mp h).2
        · exact absurd (hp ▸ List.mem_map_of_mem Prod.fst h) hnd.1
      · intro h; rw [h]; exact Or.inl rfl
    · simp only [List.mem_cons]
      constructor
      · rintro (h | h)
        · exact absurd (congrArg Prod.fst (h : (k, a) = p)).symm hp
        · exact (ih hnd.2).mp h
      · intro h; exact Or.inr ((ih hnd.2).mpr h)

/-- Every element of an updated association list is the new binding or was
already present. -/
theorem mem_dictSet {α : Type} (l : List (String × α)) (k : String) (v : α)
    (q : String × α) (h : q ∈ dictSet l k v) : q = (k, v) ∨ q ∈ l := by
  induction l with
  | nil => simpa [dictSet] using h
  | cons p rest ih =>
    simp only [dictSet] at h
    by_cases hp : p.1 = k
    · rw [if_pos hp] at h
      rcases List.mem_cons.mp h with h | h
      · exact Or.inl h
      · exact Or.inr (List.mem_cons_of_mem _ h)
    · rw [if_neg hp] at h
      rcases List.mem_cons.mp h with h | h
      · exact Or.inr (h ▸ List.mem_cons_self _ _)
      · rcases ih h with h | h
        · exact Or.inl h
        · exact Or.inr (List.mem_cons_of_mem _ h)

theorem nodup_keys_dictSet {α : Type} (l : List (String × α)) (k : String) (v : α)
    (hnd : (l.map Prod.fst).Nodup) : ((dictSet l k v).map Prod.fst).Nodup := by
  induction l with
  | nil => simp [dictSet]
  | cons p rest ih =>
    simp only [List.map_cons, List.nodup_cons] at hnd
    simp only [dictSet]
    by_cases hp : p.1 = k
    · subst hp
      simpa using hnd
    · simp only [if_neg hp, List.map_cons, List.nodup_cons]
      refine ⟨fun hmem => ?_, ih hnd.2⟩
      rcases List.mem_map.mp hmem with ⟨q, hq, hq1⟩
      rcases mem_dictSet rest k v q hq with h | h
      · exact hp (by rw [← hq1, h])
      · exact hnd.1 (hq1 ▸ List.mem_map_of_mem Prod.fst h)

/-! ## Data model (`src/feature_restriction/models.py`) -/

/-- A Python value appearing in `event_properties` (string or number; numbers
are modelled as rationals). -/
inductive PyVal where
  | str (s : String)
  | num (q : ℚ)
  | int (n : ℕ)
deriving DecidableEq, Repr

/-- Python truthiness of `event_properties.get(key)` as used by the guards
`if not card_id or not zip_code` in `event_handlers.py`: `None`, the empty
string and `0` are falsy. -/
def pyTruthy : Option PyVal → Bool
  | none => false
  | some (.str s) => s ≠ ""
  | some (.num q) => q ≠ 0
  | some (.int n) => n ≠ 0

/-- A Python value used as a lookup key (string form). -/
def pyValKey : PyVal → String
  | .str s => s
  | .num q => toString q
  | .int n => toString n

/-- `Event` from `models.py`: a name and an `event_properties` dict. -/
structure PyEvent where
  name : String
  props : List (String × PyVal)
deriving DecidableEq, Repr

/-- `UserData` from `models.py`.  `credit_cards` is the `card_id → zip_code`
dict, `unique_zip_codes` the Python set of zips, `access_flags` the dict with
keys `can_message` / `can_purchase` (both initially `True`). -/
structure UserData where
  user_id : String
  scam_message_flags : ℕ := 0
  credit_cards : List (String × String) := []
  total_credit_cards : ℕ := 0
  unique_zip_codes : Finset String := ∅
  total_spend : ℚ := 0
  total_chargebacks : ℚ := 0
  access_flags : List (String × Bool) := [("can_message", true), ("can_purchase", true)]
deriving DecidableEq

/-- `UserData(user_id=user_id)` with all defaults, as built by
`RedisUserManager.create_user`. -/
def defaultUser (uid : String) : UserData := { user_id := uid }

/-! ## UserStore (`src/feature_restriction/redis_user_manager.py`)

The Redis user database: one key per user, whole-object value. -/

/-- The user key-value store (`users:{user_id} → UserData`). -/
abbrev UserStore := List (String × UserData)

/-- `RedisUserManager.save_user`: `SET user_id json(user_data)`. -/
def save_user (store : UserStore) (u : UserData) : UserStore :=
  dictSet store u.user_id u

/-- `RedisUserManager.get_user`: `GET user_id`, `none` models the `KeyError`. -/
def get_user (store : UserStore) (uid : String) : Option UserData :=
  dictGet store uid

/-- `RedisUserManager.get_user_count`: `len(keys("*"))` on the user DB. -/
def get_user_count (store : UserStore) : ℕ := store.length

/-! ## Rules (`src/feature_restriction/rules.py`) -/

/-- The three registered rules. -/
inductive RuleName where
  | unique_zip_code_rule
  | scam_message_rule
  | chargeback_ratio_rule
deriving DecidableEq, Repr

/-- The `name` attribute of each rule class. -/
def RuleName.ruleStr : RuleName → String
  | .unique_zip_code_rule => "unique_zip_code_rule"
  | .scam_message_rule => "scam_message_rule"
  | .chargeback_ratio_rule => "chargeback_ratio_rule"

/-- `evaluate_rule` of the three concrete rule classes, translated clause by
clause from `rules.py` (ratios over ℚ; all comparisons strict `>` as in the
source; both zero-denominator guards return `False` before any division, so
the predicates are total). -/
def evaluate_rule (r : RuleName) (u : UserData) : Bool :=
  match r with
  | .unique_zip_code_rule =>
    if u.total_credit_cards ≤ 2 then false
    else decide ((u.unique_zip_codes.card : ℚ) / (u.total_credit_cards : ℚ) > 0.75)
  | .scam_message_rule => decide (u.scam_message_flags ≥ 2)
  | .chargeback_ratio_rule =>
    if u.total_spend = 0 then false
    else decide (u.total_chargebacks / u.total_spend > 0.10)

/-- `apply_rule` of the three concrete rule classes: flip one access flag to
`False`. -/
def apply_rule (r : RuleName) (u : UserData) : UserData :=
  match r with
  | .unique_zip_code_rule => { u with access_flags := dictSet u.access_flags "can_purchase" false }
  | .scam_message_rule => { u with access_flags := dictSet u.access_flags "can_message" false }
  | .chargeback_ratio_rule => { u with access_flags := dictSet u.access_flags "can_purchase" false }

/-! ## Tripwire manager (`src/feature_restriction/tripwire_manager.py`) -/

/-- The `tripwire:states` Redis hash (`rule_name → "0" | "1"`). -/
abbrev TripwireStates := List (String × String)

/-- `RedisTripwireManager.is_rule_disabled_via_tripwire`:
`hget(tripwire:states, rule_name) == "1"` (missing field reads as enabled). -/
def is_rule_disabled (states : TripwireStates) (rule_name : String) : Bool :=
  decide (dictGet states rule_name = some "1")

/-- `BaseRule.process_rule` from `rules.py`.  The Python method returns
`False` when the tripwire has the rule disabled, falls through returning
`None` when `evaluate_rule` is false, and returns `True` after mutating the
user and saving it via the user manager; the three return values are
modelled as `some false` / `none` / `some true`. -/
def process_rule (states : TripwireStates) (store : UserStore) (r : RuleName)
    (u : UserData) : Option Bool × UserData × UserStore :=
  if is_rule_disabled states r.ruleStr then (some false, u, store)
  else if evaluate_rule r u then
    let u2 := apply_rule r u
    (some true, u2, save_user store u2)
  else (none, u, store)

/-! ## Claims C1 and C4 -/

/-- Claim C1: for every rule and every user aggregate, `process_rule` has
three distinguishable outcomes (the distinct Python values `False`, `None`,
`True`, i.e. `some false`, `none`, `some true`): if the tripwire reports the
rule disabled it returns the `Disabled` value without modifying or saving the
aggregate; otherwise if the predicate is false it returns the `Skipped` value
without modifying or saving; otherwise it applies the flag mutation, saves
the mutated aggregate via the user store, and returns the `Applied` value. -/
theorem process_rule_three_outcomes (states : TripwireStates) (store : UserStore)
    (r : RuleName) (u : UserData) :
    ((some true : Option Bool) ≠ some false ∧ (some true : Option Bool) ≠ none ∧
      (some false : Option Bool) ≠ none) ∧
    (is_rule_disabled states r.ruleStr = true →
      process_rule states store r u = (some false, u, store)) ∧
    (is_rule_disabled states r.ruleStr = false → evaluate_rule r u = false →
      process_rule states store r u = (none, u, store)) ∧
    (is_rule_disabled states r.ruleStr = false → evaluate_rule r u = true →
      process_rule states store r u =
        (some true, apply_rule r u, save_user store (apply_rule r u))) := by
  refine ⟨⟨by simp, by simp, by simp⟩, ?_, ?_, ?_⟩
  · intro hd; simp [process_rule, hd]
  · intro hd he; simp [process_rule, hd, he]
  · intro hd he; simp [process_rule, hd, he]

theorem process_rule_three_outcomes_witness :
    process_rule [] [] RuleName.scam_message_rule
        { defaultUser "u1" with scam_message_flags := 2 } =
      (some true,
        apply_rule RuleName.scam_message_rule
          { defaultUser "u1" with scam_message_flags := 2 },
        save_user []
          (apply_rule RuleName.scam_message_rule
            { defaultUser "u1" with scam_message_flags := 2 })) :=
  (process_rule_three_outcomes [] [] RuleName.scam_message_rule
    { defaultUser "u1" with scam_message_flags := 2 }).2.2.2 (by decide) (by decide)

/-- Claim C4: `scam_message_rule` fires iff `scam_message_flags ≥ 2` (so at
exactly 2, not at 1); `unique_zip_code_rule` is false whenever
`total_credit_cards ≤ 2` regardless of zip uniqueness and otherwise true iff
`|unique_zip_codes| / total_credit_cards > 0.75`; `chargeback_ratio_rule` is
false when `total_spend = 0` even with positive chargebacks and otherwise
true iff `total_chargebacks / total_spend > 0.10`.  All comparisons are
strict `>` where stated, and the predicates are total functions (never
throw). -/
theorem evaluate_rule_boundaries (u : UserData) :
    (evaluate_rule RuleName.scam_message_rule u = true ↔ 2 ≤ u.scam_message_flags) ∧
    (u.total_credit_cards ≤ 2 → evaluate_rule RuleName.unique_zip_code_rule u = false) ∧
    (2 < u.total_credit_cards →
      (evaluate_rule RuleName.unique_zip_code_rule u = true ↔
        (u.unique_zip_codes.card : ℚ) / (u.total_credit_cards : ℚ) > 0.75)) ∧
    (u.total_spend = 0 → evaluate_rule RuleName.chargeback_ratio_rule u = false) ∧
    (u.total_spend ≠ 0 →
      (evaluate_rule RuleName.chargeback_ratio_rule u = true ↔
        u.total_chargebacks / u.total_spend > 0.10)) := by
  refine ⟨?_, ?_, ?_, ?_, ?_⟩
  · simp [evaluate_rule]
  · intro h; simp [evaluate_rule, h]
  · intro h; simp [evaluate_rule, Nat.not_le.mpr h, Nat.not_lt.mpr]
  · intro h; simp [evaluate_rule, h]
  · intro h; simp [evaluate_rule, h]

/-- A user at the `unique_zip_code_rule` non-firing boundary (2 cards). -/
def userTwoCards : UserData := { defaultUser "b" with total_credit_cards := 2, unique_zip_codes := {"10001", "10002"} }

/-- A user above the `unique_zip_code_rule` boundary (3 cards, 3 zips). -/
def userThreeCards : UserData := { defaultUser "c" with total_credit_cards := 3, unique_zip_codes := {"10001", "10002", "10003"} }

/-- A user with chargebacks but zero spend. -/
def userZeroSpend : UserData := { defaultUser "d" with total_chargebacks := 5 }

/-- A user with spend 100 and chargebacks 15. -/
def userSpend100 : UserData := { defaultUser "e" with total_spend := 100, total_chargebacks := 15 }

theorem evaluate_rule_boundaries_witness :
    (evaluate_rule RuleName.scam_message_rule { defaultUser "a" with scam_message_flags := 2 } = true ↔
      2 ≤ ({ defaultUser "a" with scam_message_flags := 2 } : UserData).scam_message_flags) ∧
    evaluate_rule RuleName.unique_zip_code_rule userTwoCards = false ∧
    (evaluate_rule RuleName.unique_zip_code_rule userThreeCards = true ↔
      (userThreeCards.unique_zip_codes.card : ℚ) / (userThreeCards.total_credit_cards : ℚ) > 0.75) ∧
    evaluate_rule RuleName.chargeback_ratio_rule userZeroSpend = false ∧
    (evaluate_rule RuleName.chargeback_ratio_rule userSpend100 = true ↔
      userSpend100.total_chargebacks / userSpend100.total_spend > 0.10) :=
  ⟨(evaluate_rule_boundaries _).1,
   (evaluate_rule_boundaries _).2.1 (by decide),
   (evaluate_rule_boundaries _).2.2.1 (by decide),
   (evaluate_rule_boundaries _).2.2.2.1 (by norm_num [userZeroSpend, defaultUser]),
   (evaluate_rule_boundaries _).2.2.2.2 (by norm_num [userSpend100, defaultUser])⟩

/-! ## Tripwire sliding window (`RedisTripwireManager.apply_tripwire_if_needed`) -/

/-- `time_window = 300` seconds. -/
def time_window : ℚ := 300

/-- `threshold = 0.05` (5% of total users). -/
def threshold : ℚ := 0.05

/-- The whole tripwire Redis database: the `tripwire:states` hash and one
`tripwire:affected_users:{rule_name}` hash per rule (`user_id → unix time`,
timestamps as rationals). -/
structure TripwireDB where
  states : TripwireStates
  affected : List (String × List (String × ℚ))
deriving DecidableEq

/-- The empty tripwire database. -/
def emptyTripwireDB : TripwireDB := { states := [], affected := [] }

/-- `hgetall` of a rule's affected-users hash (missing key reads as the empty
hash). -/
def affectedOf (db : TripwireDB) (rule_name : String) : List (String × ℚ) :=
  (dictGet db.affected rule_name).getD []

/-- The `expired_users` list collected by `apply_tripwire_if_needed`: fields
whose `timestamp <= current_time - self.time_window`. -/
def expired_users (au : List (String × ℚ)) (current_time : ℚ) : List String :=
  (au.filter (fun p => p.2 ≤ current_time - time_window)).map Prod.fst

/-- The affected-users hash after `hdel(affected_users_key, *expired_users)`. -/
def surviving (au : List (String × ℚ)) (current_time : ℚ) : List (String × ℚ) :=
  au.filter (fun p => p.1 ∉ expired_users au current_time)

/-- The affected-users hash after the subsequent
`hset(affected_users_key, user_id, current_time)`. -/
def recordAffected (au : List (String × ℚ)) (user_id : String) (current_time : ℚ) :
    List (String × ℚ) :=
  dictSet (surviving au current_time) user_id current_time

/-- `percentage = affected_count / total_users if total_users > 0 else 0`. -/
def tripwirePercentage (affected_count total_users : ℕ) : ℚ :=
  if total_users > 0 then (affected_count : ℚ) / (total_users : ℚ) else 0

/-- `RedisTripwireManager.apply_tripwire_if_needed(rule_name, user_id,
total_users)`, translated statement by statement: collect the expired
entries and `hdel` their fields, `hset` the current user to `current_time`,
compute the percentage, and `hset` the rule's disabled state to `"1"` iff
`percentage >= threshold`, `"0"` otherwise (both branches write the bit). -/
def apply_tripwire_if_needed (current_time : ℚ) (db : TripwireDB)
    (rule_name user_id : String) (total_users : ℕ) : TripwireDB :=
  { states := dictSet db.states rule_name
      (if tripwirePercentage
            (recordAffected (affectedOf db rule_name) user_id current_time).length
            total_users ≥ threshold
        then "1" else "0"),
    affected := dictSet db.affected rule_name
      (recordAffected (affectedOf db rule_name) user_id current_time) }

/-- With no duplicate keys, filtering out the keys of the expired entries is
exactly filtering out the expired entries. -/
theorem filter_expired_eq (au : List (String × ℚ)) (cutoff : ℚ)
    (hnd : (au.map Prod.fst).Nodup) :
    au.filter (fun p => p.1 ∉ (au.filter (fun q => q.2 ≤ cutoff)).map Prod.fst) =
      au.filter (fun p => ¬ p.2 ≤ cutoff) := by
  apply List.filter_congr
  intro p hp
  simp only [decide_eq_decide]
  constructor
  · intro h hle
    exact h (List.mem_map_of_mem Prod.fst (List.mem_filter.mpr ⟨hp, by simpa using hle⟩))
  · intro h hmem
    rcases List.mem_map.mp hmem with ⟨q, hq, hq1⟩
    rcases List.mem_filter.mp hq with ⟨hqmem, hqle⟩
    have hqp : q = p := List.inj_on_of_nodup_map hnd hqmem hp hq1
    exact h (by rw [← hqp]; simpa using hqle)

/-- Lazy expiry followed by the `hset`, on a duplicate-free hash, keeps
exactly the unexpired entries and the fresh one. -/
theorem recordAffected_eq (au : List (String × ℚ)) (user_id : String) (now : ℚ)
    (hnd : (au.map Prod.fst).Nodup) :
    recordAffected au user_id now =
      dictSet (au.filter (fun p => ¬ p.2 ≤ now - time_window)) user_id now := by
  unfold recordAffected surviving expired_users
  rw [filter_expired_eq _ _ hnd]

theorem affectedOf_apply_tripwire (db : TripwireDB) (rule_name user_id : String)
    (total_users : ℕ) (now : ℚ) :
    affectedOf (apply_tripwire_if_needed now db rule_name user_id total_users) rule_name =
      recordAffected (affectedOf db rule_name) user_id now := by
  simp [affectedOf, apply_tripwire_if_needed, dictGet_dictSet]

theorem is_rule_disabled_apply_tripwire (db : TripwireDB) (rule_name user_id : String)
    (total_users : ℕ) (now : ℚ) :
    is_rule_disabled (apply_tripwire_if_needed now db rule_name user_id total_users).states
        rule_name =
      decide (tripwirePercentage
          (recordAffected (affectedOf db rule_name) user_id now).length total_users ≥
        threshold) := by
  simp only [is_rule_disabled, apply_tripwire_if_needed, dictGet_dictSet, if_pos rfl]
  by_cases hp : tripwirePercentage
      (recordAffected (affectedOf db rule_name) user_id now).length total_users ≥ threshold
  · simp [hp]
  · simp [hp]

/-- Claim C2: each `apply_tripwire_if_needed(rule_name, user_id, total_users)`
call first removes every affected entry with timestamp `≤ now − 300`, then
sets `affected[user_id] = now`, computes `pct = |affected| / total_users`
(with `pct = 0` when `total_users = 0`, so with zero users the rule is never
disabled), and freshly sets the rule's disabled bit to `pct ≥ 0.05` — hence
the rule is disabled after the call exactly when `pct ≥ 0.05`, regardless of
its previous state. -/
theorem apply_tripwire_recompute (db : TripwireDB) (rule_name user_id : String)
    (total_users : ℕ) (now : ℚ)
    (hnd : ((affectedOf db rule_name).map Prod.fst).Nodup) :
    dictGet (affectedOf (apply_tripwire_if_needed now db rule_name user_id total_users)
        rule_name) user_id = some now ∧
    (∀ u3 ts,
      (u3, ts) ∈ affectedOf (apply_tripwire_if_needed now db rule_name user_id total_users)
          rule_name ↔
        ((u3 = user_id ∧ ts = now) ∨
          ((u3, ts) ∈ affectedOf db rule_name ∧ ¬ ts ≤ now - time_window ∧ u3 ≠ user_id))) ∧
    (is_rule_disabled (apply_tripwire_if_needed now db rule_name user_id total_users).states
        rule_name =
      decide (tripwirePercentage
          (affectedOf (apply_tripwire_if_needed now db rule_name user_id total_users)
            rule_name).length total_users ≥ threshold)) ∧
    (total_users = 0 →
      is_rule_disabled (apply_tripwire_if_needed now db rule_name user_id total_users).states
        rule_name = false) := by
  have hsub : (((affectedOf db rule_name).filter
      (fun p => ¬ p.2 ≤ now - time_window)).map Prod.fst).Nodup :=
    ((List.filter_sublist _).map Prod.fst).nodup hnd
  have haff := affectedOf_apply_tripwire db rule_name user_id total_users now
  have hrec := recordAffected_eq (affectedOf db rule_name) user_id now hnd
  have hdis := is_rule_disabled_apply_tripwire db rule_name user_id total_users now
  refine ⟨?_, ?_, ?_, ?_⟩
  · rw [haff, hrec, dictGet_dictSet, if_pos rfl]
  · intro u3 ts
    rw [haff, hrec]
    by_cases hu : u3 = user_id
    · subst hu
      rw [mem_dictSet_self _ _ _ _ hsub]
      constructor
      · intro h; exact Or.inl ⟨rfl, h⟩
      · rintro (⟨-, h⟩ | ⟨-, -, h⟩)
        · exact h
        · exact absurd rfl h
    · rw [mem_dictSet_of_ne _ _ _ _ _ hu, List.mem_filter]
      constructor
      · rintro ⟨h1, h2⟩
        exact Or.inr ⟨h1, by simpa using h2, hu⟩
      · rintro (⟨h, -⟩ | ⟨h1, h2, -⟩)
        · exact absurd h hu
        · exact ⟨h1, by simpa using h2⟩
  · rw [hdis, haff]
  · intro h0
    subst h0
    rw [hdis]
    simp [tripwirePercentage, threshold]
    norm_num

/-- A concrete tripwire database: one stale entry (t = 10) and one fresh
entry (t = 400) for `scam_message_rule`. -/
def tripwireDBw : TripwireDB :=
  { states := [], affected := [("scam_message_rule", [("old_user", 10), ("fresh_user", 400)])] }

theorem apply_tripwire_recompute_witness :
    dictGet (affectedOf (apply_tripwire_if_needed 500 tripwireDBw "scam_message_rule"
        "new_user" 10) "scam_message_rule") "new_user" = some 500 ∧
    (∀ u3 ts,
      (u3, ts) ∈ affectedOf (apply_tripwire_if_needed 500 tripwireDBw "scam_message_rule"
          "new_user" 10) "scam_message_rule" ↔
        ((u3 = "new_user" ∧ ts = 500) ∨
          ((u3, ts) ∈ affectedOf tripwireDBw "scam_message_rule" ∧
            ¬ ts ≤ 500 - time_window ∧ u3 ≠ "new_user"))) ∧
    (is_rule_disabled (apply_tripwire_if_needed 500 tripwireDBw "scam_message_rule"
        "new_user" 10).states "scam_message_rule" =
      decide (tripwirePercentage
          (affectedOf (apply_tripwire_if_needed 500 tripwireDBw "scam_message_rule"
            "new_user" 10) "scam_message_rule").length 10 ≥ threshold)) ∧
    ((10 : ℕ) = 0 →
      is_rule_disabled (apply_tripwire_if_needed 500 tripwireDBw "scam_message_rule"
        "new_user" 10).states "scam_message_rule" = false) :=
  apply_tripwire_recompute tripwireDBw "scam_message_rule" "new_user" 10 500 (by decide)

/-! ## Event handlers (`src/feature_restriction/event_handlers.py`)

A handler mutates the in-memory aggregate, saves it via the user manager and
returns; a raised exception is modelled as the third component, with the
aggregate and store exactly as they were at the raise point. -/

/-- The Python exceptions that appear on the consumer path. -/
inductive PyErr where
  | keyError
  | connectionError
  | typeError (msg : String)
  | valueError (msg : String)
  | jsonError
deriving DecidableEq, Repr

/-- The common shape of `BaseEventHandler.handle`. -/
abbrev Handler := PyEvent → UserData → UserStore → UserData × UserStore × Option PyErr

/-- The mutation block of `CreditCardAddedHandler.handle` for a fresh card:
`credit_cards[card_id] = zip_code`, `total_credit_cards += 1`,
`unique_zip_codes.add(zip_code)`. -/
def insertCard (u : UserData) (card_id zip_code : String) : UserData :=
  { u with credit_cards := dictSet u.credit_cards card_id zip_code, total_credit_cards := u.total_credit_cards + 1, unique_zip_codes := insert zip_code u.unique_zip_codes }

/-- `CreditCardAddedHandler.handle`: read `card_id` and `zip_code`, raise
`ValueError` if either is missing or falsy (empty string), insert the card
only when `card_id not in credit_cards` (incrementing the counter and adding
the zip to the set), then save. -/
def creditCardAddedHandle : Handler := fun e u store =>
  match dictGet e.props "card_id", dictGet e.props "zip_code" with
  | some cv, some zv =>
    if pyTruthy (some cv) && pyTruthy (some zv) then
      let u2 := if (dictGet u.credit_cards (pyValKey cv)).isSome then u
        else insertCard u (pyValKey cv) (pyValKey zv)
      (u2, save_user store u2, none)
    else (u, store, some (.valueError "card_id and zip_code are required"))
  | _, _ => (u, store, some (.valueError "card_id and zip_code are required"))

/-- `ScamMessageFlaggedHandler.handle`: increment the flag count and save. -/
def scamMessageFlaggedHandle : Handler := fun _ u store =>
  let u2 := { u with scam_message_flags := u.scam_message_flags + 1 }
  (u2, save_user store u2, none)

/-- `ChargebackOccurredHandler.handle`: raise `ValueError` when `amount` is
missing (`None`); otherwise add it to `total_chargebacks` and save (a
non-numeric amount raises `TypeError` at the addition, before any
mutation). -/
def chargebackOccurredHandle : Handler := fun e u store =>
  match dictGet e.props "amount" with
  | none => (u, store, some (.valueError "amount is required"))
  | some (.num amount) =>
    let u2 := { u with total_chargebacks := u.total_chargebacks + amount }
    (u2, save_user store u2, none)
  | some (.int amount) =>
    let u2 := { u with total_chargebacks := u.total_chargebacks + (amount : ℚ) }
    (u2, save_user store u2, none)
  | some (.str _) => (u, store, some (.typeError "unsupported operand type for +"))

/-- `PurchaseMadeHandler.handle`: raise `ValueError` when `amount` is
missing; otherwise add it to `total_spend` and save. -/
def purchaseMadeHandle : Handler := fun e u store =>
  match dictGet e.props "amount" with
  | none => (u, store, some (.valueError "amount is required"))
  | some (.num amount) =>
    let u2 := { u with total_spend := u.total_spend + amount }
    (u2, save_user store u2, none)
  | some (.int amount) =>
    let u2 := { u with total_spend := u.total_spend + (amount : ℚ) }
    (u2, save_user store u2, none)
  | some (.str _) => (u, store, some (.typeError "unsupported operand type for +"))

/-! ## Registry (`src/feature_restriction/registry.py`, `register_default`) -/

/-- `EventHandlerRegistry.get`: event name → handler. -/
def eventHandlerFor (event_name : String) : Option Handler :=
  if event_name = "credit_card_added" then some creditCardAddedHandle
  else if event_name = "scam_message_flagged" then some scamMessageFlaggedHandle
  else if event_name = "chargeback_occurred" then some chargebackOccurredHandle
  else if event_name = "purchase_made" then some purchaseMadeHandle
  else none

/-- `EventHandlerRegistry.get_rules_for_event`: event name → associated rule
names (empty for unknown events and for `purchase_made`). -/
def rulesForEvent (event_name : String) : List String :=
  if event_name = "credit_card_added" then ["unique_zip_code_rule"]
  else if event_name = "scam_message_flagged" then ["scam_message_rule"]
  else if event_name = "chargeback_occurred" then ["chargeback_ratio_rule"]
  else []

/-- `RuleRegistry.get`: rule name → rule. -/
def ruleFor (rule_name : String) : Option RuleName :=
  if rule_name = "unique_zip_code_rule" then some .unique_zip_code_rule
  else if rule_name = "scam_message_rule" then some .scam_message_rule
  else if rule_name = "chargeback_ratio_rule" then some .chargeback_ratio_rule
  else none

/-! ## Per-user processing steps

A step on one user's aggregate, as driven by the consumer: execute the
registered handler of an event, or process one rule (with whatever tripwire
state the consumer sees at that moment). -/

inductive SysStep where
  | ev (e : PyEvent)
  | rule (states : TripwireStates) (r : RuleName)

/-- One step of the consumer on a user's aggregate and the user store. -/
def run_step (s : SysStep) (us : UserData × UserStore) : UserData × UserStore :=
  match s with
  | .ev e =>
    match eventHandlerFor e.name with
    | none => us
    | some h =>
      let r := h e us.1 us.2
      (r.1, r.2.1)
  | .rule states r =>
    let pr := process_rule states us.2 r us.1
    (pr.2.1, pr.2.2)

/-- A sequence of steps. -/
def run_steps (l : List SysStep) (us : UserData × UserStore) : UserData × UserStore :=
  l.foldl (fun a s => run_step s a) us

theorem dictGet_eq_none_iff {α : Type} (l : List (String × α)) (k : String) :
    dictGet l k = none ↔ k ∉ l.map Prod.fst := by
  induction l with
  | nil => simp [dictGet]
  | cons p rest ih =>
    simp only [dictGet, List.map_cons, List.mem_cons]
    by_cases hp : p.1 = k
    · simp [hp]
    · rw [if_neg hp, ih]
      constructor
      · rintro h (hk | hm)
        · exact hp hk.symm
        · exact h hm
      · intro h hm
        exact h (Or.inr hm)

/-- None of the four handlers touches `access_flags`. -/
theorem handler_access_flags (e : PyEvent) (u : UserData) (store : UserStore) :
    (creditCardAddedHandle e u store).1.access_flags = u.access_flags ∧
    (scamMessageFlaggedHandle e u store).1.access_flags = u.access_flags ∧
    (chargebackOccurredHandle e u store).1.access_flags = u.access_flags ∧
    (purchaseMadeHandle e u store).1.access_flags = u.access_flags := by
  refine ⟨?_, rfl, ?_, ?_⟩
  · unfold creditCardAddedHandle
    cases hc : dictGet e.props "card_id" with
    | none => cases hz : dictGet e.props "zip_code" <;> rfl
    | some cv =>
      cases hz : dictGet e.props "zip_code" with
      | none => rfl
      | some zv =>
        by_cases hg : pyTruthy (some cv) && pyTruthy (some zv)
        · simp only [if_pos hg]
          by_cases hd : (dictGet u.credit_cards (pyValKey cv)).isSome
          · simp [hd]
          · simp [hd, insertCard]
        · simp [hg]
  · unfold chargebackOccurredHandle
    cases ha : dictGet e.props "amount" with
    | none => rfl
    | some v => cases v <;> rfl
  · unfold purchaseMadeHandle
    cases ha : dictGet e.props "amount" with
    | none => rfl
    | some v => cases v <;> rfl

theorem dictGet_dictSet_false {af : List (String × Bool)} {key : String}
    (key2 : String) (h : dictGet af key = some false) :
    dictGet (dictSet af key2 false) key = some false := by
  rw [dictGet_dictSet]
  by_cases hk : key = key2 <;> simp [hk, h]

/-- `apply_rule` only ever writes `false` into a flag, so a flag that is
already `false` stays `false`. -/
theorem apply_rule_flag_false (r : RuleName) (u : UserData) (key : String)
    (h : dictGet u.access_flags key = some false) :
    dictGet (apply_rule r u).access_flags key = some false := by
  cases r <;> simp only [apply_rule] <;> exact dictGet_dictSet_false _ h

theorem run_step_flag_false (s : SysStep) (u : UserData) (store : UserStore)
    (key : String) (h : dictGet u.access_flags key = some false) :
    dictGet (run_step s (u, store)).1.access_flags key = some false := by
  cases s with
  | ev e =>
    have hh := handler_access_flags e u store
    unfold run_step eventHandlerFor
    by_cases h1 : e.name = "credit_card_added"
    · simpa [h1, hh.1] using h
    · by_cases h2 : e.name = "scam_message_flagged"
      · simpa [h1, h2, hh.2.1] using h
      · by_cases h3 : e.name = "chargeback_occurred"
        · simpa [h1, h2, h3, hh.2.2.1] using h
        · by_cases h4 : e.name = "purchase_made"
          · simpa [h1, h2, h3, h4, hh.2.2.2] using h
          · simpa [h1, h2, h3, h4] using h
  | rule states r =>
    unfold run_step process_rule
    by_cases hd : is_rule_disabled states r.ruleStr
    · simpa [hd] using h
    · by_cases he : evaluate_rule r u
      · simpa [hd, he] using apply_rule_flag_false r u key h
      · simpa [hd, he] using h

/-- Claim C5: access flags are monotone downward.  Once `can_message` or
`can_purchase` (indeed, any access flag) has been set to `false`, no
subsequent handler execution or rule application sets it back to `true`. -/
theorem access_flags_monotone (l : List SysStep) (u : UserData) (store : UserStore)
    (key : String) (h : dictGet u.access_flags key = some false) :
    dictGet (run_steps l (u, store)).1.access_flags key = some false := by
  induction l generalizing u store with
  | nil => simpa [run_steps] using h
  | cons s rest ih =>
    have hstep := run_step_flag_false s u store key h
    have : run_steps (s :: rest) (u, store) = run_steps rest (run_step s (u, store)) := rfl
    rw [this]
    exact ih (run_step s (u, store)).1 (run_step s (u, store)).2 hstep

theorem access_flags_monotone_witness :
    dictGet (run_steps [SysStep.ev ⟨"scam_message_flagged", [("user_id", PyVal.str "u1")]⟩,
        SysStep.rule [] RuleName.scam_message_rule]
      ({ defaultUser "u1" with
          access_flags := [("can_message", false), ("can_purchase", true)] }, [])).1.access_flags
      "can_message" = some false :=
  access_flags_monotone _ _ _ _ (by decide)

/-- `credit_card_added` with a fresh `card_id`: insert, bump the counter,
add the zip, save. -/
theorem ccah_insert (e : PyEvent) (u : UserData) (store : UserStore) (cv zv : PyVal)
    (hc : dictGet e.props "card_id" = some cv) (hz : dictGet e.props "zip_code" = some zv)
    (hg : (pyTruthy (some cv) && pyTruthy (some zv)) = true)
    (hd : dictGet u.credit_cards (pyValKey cv) = none) :
    creditCardAddedHandle e u store =
      (insertCard u (pyValKey cv) (pyValKey zv),
        save_user store (insertCard u (pyValKey cv) (pyValKey zv)), none) := by
  simp [creditCardAddedHandle, hc, hz, hg, hd]

/-- `credit_card_added` with an already-known `card_id`: the aggregate is
untouched (first-write-wins), but it is still saved. -/
theorem ccah_dup (e : PyEvent) (u : UserData) (store : UserStore) (cv zv : PyVal)
    (hc : dictGet e.props "card_id" = some cv) (hz : dictGet e.props "zip_code" = some zv)
    (hg : (pyTruthy (some cv) && pyTruthy (some zv)) = true)
    (hd : (dictGet u.credit_cards (pyValKey cv)).isSome = true) :
    creditCardAddedHandle e u store = (u, save_user store u, none) := by
  simp [creditCardAddedHandle, hc, hz, hg, hd]

/-- Claim C6: two `credit_card_added` events for the same user carrying the
same `card_id` (whatever their zip codes) leave the aggregate and the store
exactly as after the first alone: the second event changes nothing and
raises nothing. -/
theorem credit_card_added_idempotent (u : UserData) (store : UserStore)
    (e1 e2 : PyEvent) (cv1 zv1 cv2 zv2 : PyVal)
    (h1c : dictGet e1.props "card_id" = some cv1)
    (h1z : dictGet e1.props "zip_code" = some zv1)
    (h2c : dictGet e2.props "card_id" = some cv2)
    (h2z : dictGet e2.props "zip_code" = some zv2)
    (hsame : pyValKey cv2 = pyValKey cv1)
    (ht1 : pyTruthy (some cv1) = true) (hu1 : pyTruthy (some zv1) = true)
    (ht2 : pyTruthy (some cv2) = true) (hu2 : pyTruthy (some zv2) = true) :
    creditCardAddedHandle e2 (creditCardAddedHandle e1 u store).1
        (creditCardAddedHandle e1 u store).2.1 =
      ((creditCardAddedHandle e1 u store).1, (creditCardAddedHandle e1 u store).2.1,
        none) := by
  by_cases hd : (dictGet u.credit_cards (pyValKey cv1)).isSome = true
  · have hdup := ccah_dup e1 u store cv1 zv1 h1c h1z (by simp [ht1, hu1]) hd
    have hdup2 := ccah_dup e2 u (save_user store u) cv2 zv2 h2c h2z
      (by simp [ht2, hu2]) (by rw [hsame]; exact hd)
    rw [hdup]
    simp only [hdup2]
    simp [save_user, dictSet_dictSet_same]
  · have hcc : dictGet u.credit_cards (pyValKey cv1) = none := by
      cases hval : dictGet u.credit_cards (pyValKey cv1) with
      | none => rfl
      | some z => rw [hval] at hd; simp at hd
    have hins := ccah_insert e1 u store cv1 zv1 h1c h1z (by simp [ht1, hu1]) hcc
    have hmem : (dictGet (insertCard u (pyValKey cv1) (pyValKey zv1)).credit_cards
        (pyValKey cv2)).isSome = true := by
      simp only [hsame, insertCard]
      rw [dictGet_dictSet, if_pos rfl]
      rfl
    have hdup2 := ccah_dup e2 (insertCard u (pyValKey cv1) (pyValKey zv1))
      (save_user store (insertCard u (pyValKey cv1) (pyValKey zv1))) cv2 zv2 h2c h2z
      (by simp [ht2, hu2]) hmem
    rw [hins]
    simp only [hdup2]
    simp [save_user, dictSet_dictSet_same]

theorem credit_card_added_idempotent_witness :
    creditCardAddedHandle
        ⟨"credit_card_added", [("user_id", PyVal.str "u4"), ("card_id", PyVal.str "c1"),
          ("zip_code", PyVal.str "10002")]⟩
        (creditCardAddedHandle
          ⟨"credit_card_added", [("user_id", PyVal.str "u4"), ("card_id", PyVal.str "c1"),
            ("zip_code", PyVal.str "10001")]⟩ (defaultUser "u4") []).1
        (creditCardAddedHandle
          ⟨"credit_card_added", [("user_id", PyVal.str "u4"), ("card_id", PyVal.str "c1"),
            ("zip_code", PyVal.str "10001")]⟩ (defaultUser "u4") []).2.1 =
      ((creditCardAddedHandle
          ⟨"credit_card_added", [("user_id", PyVal.str "u4"), ("card_id", PyVal.str "c1"),
            ("zip_code", PyVal.str "10001")]⟩ (defaultUser "u4") []).1,
        (creditCardAddedHandle
          ⟨"credit_card_added", [("user_id", PyVal.str "u4"), ("card_id", PyVal.str "c1"),
            ("zip_code", PyVal.str "10001")]⟩ (defaultUser "u4") []).2.1, none) :=
  credit_card_added_idempotent (defaultUser "u4") []
    ⟨"credit_card_added", [("user_id", PyVal.str "u4"), ("card_id", PyVal.str "c1"),
      ("zip_code", PyVal.str "10001")]⟩
    ⟨"credit_card_added", [("user_id", PyVal.str "u4"), ("card_id", PyVal.str "c1"),
      ("zip_code", PyVal.str "10002")]⟩
    (PyVal.str "c1") (PyVal.str "10001") (PyVal.str "c1") (PyVal.str "10002")
    (by decide) (by decide) (by decide) (by decide) (by decide)
    (by decide) (by decide) (by decide) (by decide)

/-- The counting invariant of the aggregate: `total_credit_cards` is the
number of keys of `credit_cards` (which are duplicate-free), and
`unique_zip_codes` is the set of zip codes stored in `credit_cards`, i.e.
the zips inserted on the first add of each `card_id`. -/
def wf_user (u : UserData) : Prop :=
  (u.credit_cards.map Prod.fst).Nodup ∧
  u.total_credit_cards = u.credit_cards.length ∧
  u.unique_zip_codes = (u.credit_cards.map Prod.snd).toFinset

theorem insertCard_wf (u : UserData) (card_id zip_code : String)
    (hd : dictGet u.credit_cards card_id = none) (h : wf_user u) :
    wf_user (insertCard u card_id zip_code) := by
  obtain ⟨hnd, hlen, hzip⟩ := h
  have hnotin : card_id ∉ u.credit_cards.map Prod.fst := (dictGet_eq_none_iff _ _).mp hd
  have happ : dictSet u.credit_cards card_id zip_code =
      u.credit_cards ++ [(card_id, zip_code)] := dictSet_of_get_none _ _ _ hd
  refine ⟨?_, ?_, ?_⟩
  · simp only [insertCard, happ, List.map_append, List.map_cons, List.map_nil]
    simp [List.nodup_append, hnd, hnotin]
  · simp [insertCard, happ, hlen]
  · simp only [insertCard, happ, List.map_append, List.toFinset_append, hzip]
    simp [Finset.union_comm, Finset.insert_eq]

theorem handler_wf (e : PyEvent) (u : UserData) (store : UserStore) (h : wf_user u) :
    wf_user (creditCardAddedHandle e u store).1 ∧
    wf_user (scamMessageFlaggedHandle e u store).1 ∧
    wf_user (chargebackOccurredHandle e u store).1 ∧
    wf_user (purchaseMadeHandle e u store).1 := by
  refine ⟨?_, ?_, ?_, ?_⟩
  · unfold creditCardAddedHandle
    cases hc : dictGet e.props "card_id" with
    | none => cases hz : dictGet e.props "zip_code" <;> simpa using h
    | some cv =>
      cases hz : dictGet e.props "zip_code" with
      | none => simpa using h
      | some zv =>
        by_cases hg : pyTruthy (some cv) && pyTruthy (some zv)
        · simp only [if_pos hg]
          by_cases hd : (dictGet u.credit_cards (pyValKey cv)).isSome
          · simpa [hd] using h
          · have hdn : dictGet u.credit_cards (pyValKey cv) = none := by
              cases hval : dictGet u.credit_cards (pyValKey cv) with
              | none => rfl
              | some z => rw [hval] at hd; simp at hd
            simpa [hd] using insertCard_wf u (pyValKey cv) (pyValKey zv) hdn h
        · simpa [hg] using h
  · simpa [scamMessageFlaggedHandle, wf_user] using h
  · unfold chargebackOccurredHandle
    cases ha : dictGet e.props "amount" with
    | none => simpa using h
    | some v => cases v <;> simpa [wf_user] using h
  · unfold purchaseMadeHandle
    cases ha : dictGet e.props "amount" with
    | none => simpa using h
    | some v => cases v <;> simpa [wf_user] using h

theorem run_step_wf (s : SysStep) (u : UserData) (store : UserStore) (h : wf_user u) :
    wf_user (run_step s (u, store)).1 := by
  cases s with
  | ev e =>
    have hh := handler_wf e u store h
    unfold run_step eventHandlerFor
    by_cases h1 : e.name = "credit_card_added"
    · simpa [h1] using hh.1
    · by_cases h2 : e.name = "scam_message_flagged"
      · simpa [h1, h2] using hh.2.1
      · by_cases h3 : e.name = "chargeback_occurred"
        · simpa [h1, h2, h3] using hh.2.2.1
        · by_cases h4 : e.name = "purchase_made"
          · simpa [h1, h2, h3, h4] using hh.2.2.2
          · simpa [h1, h2, h3, h4] using h
  | rule states r =>
    unfold run_step process_rule
    by_cases hd : is_rule_disabled states r.ruleStr
    · simpa [hd] using h
    · by_cases he : evaluate_rule r u
      · have : wf_user (apply_rule r u) := by
          cases r <;> simpa [apply_rule, wf_user] using h
        simpa [hd, he] using this
      · simpa [hd, he] using h

theorem run_steps_wf (l : List SysStep) (u : UserData) (store : UserStore)
    (h : wf_user u) : wf_user (run_steps l (u, store)).1 := by
  induction l generalizing u store with
  | nil => simpa [run_steps] using h
  | cons s rest ih =>
    have hstep := run_step_wf s u store h
    have heq : run_steps (s :: rest) (u, store) = run_steps rest (run_step s (u, store)) := rfl
    rw [heq]
    exact ih (run_step s (u, store)).1 (run_step s (u, store)).2 hstep

/-- Claim C7: a freshly created aggregate has all counters zero, and after
every sequence of processed events and rule applications starting from it,
`total_credit_cards` equals the number of keys of `credit_cards` and
`unique_zip_codes` equals the set of zip codes inserted on the first add of
each `card_id` (the value set of `credit_cards`). -/
theorem counters_invariant (uid : String) (store : UserStore) (l : List SysStep) :
    (defaultUser uid).scam_message_flags = 0 ∧
    (defaultUser uid).total_credit_cards = 0 ∧
    (defaultUser uid).credit_cards = [] ∧
    (defaultUser uid).unique_zip_codes = ∅ ∧
    (defaultUser uid).total_spend = 0 ∧
    (defaultUser uid).total_chargebacks = 0 ∧
    wf_user (defaultUser uid) ∧
    wf_user (run_steps l (defaultUser uid, store)).1 :=
  ⟨rfl, rfl, rfl, rfl, rfl, rfl, ⟨by simp [defaultUser], by simp [defaultUser], by simp [defaultUser]⟩,
    run_steps_wf l _ store ⟨by simp [defaultUser], by simp [defaultUser], by simp [defaultUser]⟩⟩

/-- Claim C10: a handler whose required event properties are missing (or, for
`credit_card_added`, empty strings) raises its `ValueError` before any
mutation and before any save: the aggregate and the store are returned
exactly as they were. -/
theorem handler_error_atomicity (e : PyEvent) (u : UserData) (store : UserStore) :
    ((pyTruthy (dictGet e.props "card_id") = false ∨
        pyTruthy (dictGet e.props "zip_code") = false) →
      creditCardAddedHandle e u store =
        (u, store, some (.valueError "card_id and zip_code are required"))) ∧
    (dictGet e.props "amount" = none →
      chargebackOccurredHandle e u store =
          (u, store, some (.valueError "amount is required")) ∧
        purchaseMadeHandle e u store =
          (u, store, some (.valueError "amount is required"))) := by
  constructor
  · intro hfalsy
    unfold creditCardAddedHandle
    cases hc : dictGet e.props "card_id" with
    | none => cases hz : dictGet e.props "zip_code" <;> rfl
    | some cv =>
      cases hz : dictGet e.props "zip_code" with
      | none => rfl
      | some zv =>
        rw [hc, hz] at hfalsy
        have hg : (pyTruthy (some cv) && pyTruthy (some zv)) = false := by
          rcases hfalsy with h | h <;> simp [h]
        simp [hg]
  · intro ha
    exact ⟨by simp [chargebackOccurredHandle, ha], by simp [purchaseMadeHandle, ha]⟩

theorem handler_error_atomicity_witness :
    creditCardAddedHandle
        ⟨"credit_card_added", [("user_id", PyVal.str "u"), ("zip_code", PyVal.str "")]⟩
        (defaultUser "u") [] =
      (defaultUser "u", [], some (.valueError "card_id and zip_code are required")) ∧
    chargebackOccurredHandle ⟨"chargeback_occurred", [("user_id", PyVal.str "u")]⟩
        (defaultUser "u") [] =
      (defaultUser "u", [], some (.valueError "amount is required")) :=
  ⟨(handler_error_atomicity
      ⟨"credit_card_added", [("user_id", PyVal.str "u"), ("zip_code", PyVal.str "")]⟩
      (defaultUser "u") []).1 (by decide),
   ((handler_error_atomicity ⟨"chargeback_occurred", [("user_id", PyVal.str "u")]⟩
      (defaultUser "u") []).2 (by decide)).1⟩

/-! ## Stream consumer (`src/stream_consumer.py`, `RedisStreamConsumer`) -/

/-- The mutable backing state the consumer works against: the user database
and the tripwire database. -/
structure SysState where
  users : UserStore
  tripwire : TripwireDB
deriving DecidableEq

/-- One delivered stream entry: the `name` field and the result of
`json.loads(event_data["event_properties"])` (`none` models an
`event_properties` string that fails to parse). -/
structure EntryData where
  name : String
  propsRaw : Option (List (String × PyVal))
deriving DecidableEq

/-- The Python-level call
`self.tripwire_manager.apply_tripwire_if_needed(...)` made by
`RedisStreamConsumer.process_event` (line 173), with its positional argument
list.  `RedisTripwireManager.apply_tripwire_if_needed` declares three
required positional parameters `(rule_name, user_id, total_users)`, so
Python raises `TypeError` unless exactly three are supplied. -/
def call_apply_tripwire_if_needed (now : ℚ) (db : TripwireDB) (args : List PyVal) :
    Except String TripwireDB :=
  match args with
  | [.str rule_name, .str user_id, .int total_users] =>
    .ok (apply_tripwire_if_needed now db rule_name user_id total_users)
  | _ =>
    .error "apply_tripwire_if_needed() missing 1 required positional argument: total_users"

/-- STEP 2 and STEP 3 of `RedisStreamConsumer.process_event`: for each rule
name registered for the event, look the rule up, call `process_rule`, and —
only when it returned the truthy `Applied` value — make the tripwire call
exactly as the source does: `apply_tripwire_if_needed(rule.name,
user_data.user_id)`, i.e. with two arguments and no `total_users`.  A raised
`TypeError` aborts the loop and propagates. -/
def run_rules (now : ℚ) (ruleNames : List String) (u : UserData) (users : UserStore)
    (tw : TripwireDB) : UserStore × TripwireDB × Option PyErr :=
  match ruleNames with
  | [] => (users, tw, none)
  | rn :: rest =>
    match ruleFor rn with
    | none => run_rules now rest u users tw
    | some r =>
      let pr := process_rule tw.states users r u
      if pr.1 = some true then
        match call_apply_tripwire_if_needed now tw [.str r.ruleStr, .str pr.2.1.user_id] with
        | .ok tw2 => run_rules now rest pr.2.1 pr.2.2 tw2
        | .error msg => (pr.2.2, tw, some (.typeError msg))
      else run_rules now rest pr.2.1 pr.2.2 tw

/-- `RedisStreamConsumer.process_event`: parse the serialized properties,
read `user_id`, `get_user` (falling back to `create_user` on `KeyError`),
dispatch to the registered handler if any, then process the event's rules.
The whole body is wrapped in `try ... except Exception`, so every raised
error is logged and swallowed (returned as the second component); the state
reflects all writes made before the raise point.  `dbOk = false` injects a
transient `ConnectionError` on the first user-database access. -/
def process_event (dbOk : Bool) (now : ℚ) (ed : EntryData) (st : SysState) :
    SysState × Option PyErr :=
  match ed.propsRaw with
  | none => (st, some .jsonError)
  | some props =>
    match dictGet props "user_id" with
    | none => (st, some .keyError)
    | some uidVal =>
      if dbOk = false then (st, some .connectionError)
      else
        let uid := pyValKey uidVal
        let gu :=
          match get_user st.users uid with
          | some u => (u, st.users)
          | none => (defaultUser uid, save_user st.users (defaultUser uid))
        let hres :=
          match eventHandlerFor ed.name with
          | none => (gu.1, gu.2, none)
          | some h => h ⟨ed.name, props⟩ gu.1 gu.2
        match hres.2.2 with
        | some err => ({ users := hres.2.1, tripwire := st.tripwire }, some err)
        | none =>
          let rres := run_rules now (rulesForEvent ed.name) hres.1 hres.2.1 st.tripwire
          ({ users := rres.1, tripwire := rres.2.1 }, rres.2.2)

/-- One iteration of the inner loop of `RedisStreamConsumer.start`:
`process_event(event_id, event_data)` followed by
`xack(EVENT_STREAM_KEY, CONSUMER_GROUP, event_id)`, inside the loop's
`try ... except`.  The Bool component records whether the entry was
acknowledged; `streamOk = false` injects a `ConnectionError` on the `xack`
call itself (the only way the entry stays pending). -/
def consume_entry (dbOk streamOk : Bool) (now : ℚ) (ed : EntryData) (st : SysState) :
    SysState × Bool × Option PyErr :=
  let pr := process_event dbOk now ed st
  if streamOk then (pr.1, true, pr.2)
  else (pr.1, false, some .connectionError)

/-- A stored user one scam flag short of the `scam_message_rule` boundary. -/
def u1pre : UserData := { defaultUser "u1" with scam_message_flags := 1 }

/-- Backing state holding just `u1pre`, with a clean tripwire database. -/
def stPre : SysState := { users := [("u1", u1pre)], tripwire := emptyTripwireDB }

/-- A well-formed `scam_message_flagged` stream entry for `u1`. -/
def scamEntry : EntryData :=
  { name := "scam_message_flagged", propsRaw := some [("user_id", PyVal.str "u1")] }

/-- Claim C3 (failing input): processing a `scam_message_flagged` event that
makes `scam_message_rule` fire for `u1`.  The rule is applied and the user
saved with `can_message = false`, but the consumer's tripwire call
`apply_tripwire_if_needed(rule.name, user_data.user_id)` supplies no
`total_users` argument, so it raises `TypeError` — swallowed by the blanket
`except` — and the tripwire database is left completely untouched: no
affected-user recording ever happens. -/
theorem consumer_tripwire_call_type_error :
    (process_event true 999 scamEntry stPre).2 =
      some (.typeError
        "apply_tripwire_if_needed() missing 1 required positional argument: total_users") ∧
    (process_event true 999 scamEntry stPre).1.tripwire = emptyTripwireDB ∧
    dictGet (process_event true 999 scamEntry stPre).1.users "u1" =
      some (apply_rule RuleName.scam_message_rule
        { u1pre with scam_message_flags := 2 }) := by
  refine ⟨rfl, rfl, rfl⟩

/-- Claim C9 (counterexample): an entry whose processing fails with a
transient backing-store `ConnectionError` (user database down while the
stream connection is fine) IS acknowledged: `process_event` catches every
exception internally, so control always reaches `xack`. -/
theorem transient_error_still_acked :
    (consume_entry false true 0 scamEntry stPre).2.2 = some PyErr.connectionError ∧
    (consume_entry false true 0 scamEntry stPre).2.1 = true :=
  ⟨rfl, rfl⟩

/-- Claim C9 (amended): in the consumer main loop every delivered entry is
acknowledged after its processing regardless of the outcome — including
unknown event names, bad event properties, and transient backing-store
errors raised during processing, which are all logged and swallowed by
`process_event`.  An entry remains pending for redelivery only when the
`xack` call itself (or the batch read) fails against the stream
connection. -/
theorem consumer_ack_policy (dbOk : Bool) (now : ℚ) (ed : EntryData) (st : SysState) :
    (consume_entry dbOk true now ed st).2.1 = true ∧
    (consume_entry dbOk false now ed st).2.1 = false :=
  ⟨rfl, rfl⟩

/-! ## Query endpoints (`src/feature_restriction/endpoint_access.py`, `src/app.py`) -/

/-- The JSON body returned by `RedisEndpointAccess.check_access`: either
`{access_key: value}` or `{"error": message}`. -/
inductive CheckResult where
  | ok (key : String) (v : Option Bool)
  | errDict (msg : String)
deriving DecidableEq, Repr

/-- `RedisEndpointAccess.check_access`: `get_user`, then
`access_flags.get(access_key)` (so a missing key yields Python `None`); a
`KeyError` (unknown user) is caught and turned into the error dict.  Both
are plain returned dicts. -/
def check_access (store : UserStore) (user_id access_key : String) : CheckResult :=
  match get_user store user_id with
  | some u => .ok access_key (dictGet u.access_flags access_key)
  | none => .errDict ("No user found with ID " ++ user_id)

/-- The HTTP status the FastAPI endpoints `/canmessage` and `/canpurchase`
attach to `check_access`'s return value: a returned dict is serialized with
status 200 on both paths (`HTTPException(500)` is raised only for unexpected
errors, which a healthy store never produces). -/
def httpStatus : CheckResult → ℕ := fun _ => 200

/-- A stored user whose `access_flags` dict has no keys at all. -/
def userNoFlags : UserData := { defaultUser "u2" with access_flags := [] }

/-- Claim C8 (counterexample): for a `user_id` with no stored aggregate,
`GET /canmessage` answers HTTP 200 with `{"error": ...}` — not HTTP 404 —
and when the aggregate exists but `access_flags` lacks the key, the returned
value is `None` (JSON `null`), not `true`. -/
theorem canmessage_counterexample :
    check_access [] "u1" "can_message" = .errDict "No user found with ID u1" ∧
    httpStatus (check_access [] "u1" "can_message") = 200 ∧
    (200 : ℕ) ≠ 404 ∧
    check_access [("u2", userNoFlags)] "u2" "can_message" = .ok "can_message" none ∧
    (none : Option Bool) ≠ some true := by
  refine ⟨rfl, rfl, by decide, rfl, by decide⟩

/-- Claim C8 (amended): `GET /canmessage` (and symmetrically
`/canpurchase`) answers HTTP 200 with `{access_key: flags.get(access_key)}`
when the aggregate exists — the value is the stored flag, or `None` when the
key is missing — and HTTP 200 with `{"error": "No user found with ID
<user_id>"}` when no aggregate exists; it never returns 404. -/
theorem check_access_characterization (store : UserStore) (uid key : String) :
    (∀ u, get_user store uid = some u →
      check_access store uid key = .ok key (dictGet u.access_flags key)) ∧
    (get_user store uid = none →
      check_access store uid key = .errDict ("No user found with ID " ++ uid)) ∧
    httpStatus (check_access store uid key) = 200 := by
  refine ⟨?_, ?_, rfl⟩
  · intro u hu; simp [check_access, hu]
  · intro hu; simp [check_access, hu]

theorem check_access_characterization_witness :
    check_access [("u2", userNoFlags)] "u2" "can_message" =
      .ok "can_message" (dictGet userNoFlags.access_flags "can_message") ∧
    check_access [] "u1" "can_message" = .errDict ("No user found with ID " ++ "u1") :=
  ⟨(check_access_characterization [("u2", userNoFlags)] "u2" "can_message").1
      userNoFlags (by decide),
   (check_access_characterization [] "u1" "can_message").2.1 rfl⟩

end FeatureRestriction
